import Mathlib

/-!
Shallow embedding of the monero-adaptor crate
(src/monero-adaptor/src/lib.rs and src/monero-adaptor/src/clsag.rs):
the CLSAG signing kernel, the DLEQ proof, the hash commitment, the
two-party adaptor protocol and the on-chain conversion.

The external collaborators of the crate (curve25519 group arithmetic,
Keccak-256, hash-to-point, byte encodings) are abstracted as a bundle of
primitives: scalars form an arbitrary field `S` (the source's `Scalar`,
the integers mod the prime group order) and group elements an arbitrary
`S`-module `P` (the source's `EdwardsPoint`, restricted as the spec says
to the torsion-free prime-order subgroup).  Randomness drawn from the
injected RNG in the source is passed as explicit arguments.
-/

namespace Monero

/-- Byte strings (`&[u8]`, `Vec<u8>`, `[u8; 32]`) are modelled as lists of
naturals. -/
abbrev Bytes := List Nat

/-- `pub const RING_SIZE: usize = 11;` -/
abbrev RING_SIZE : Nat := 11

/-- The primitives the crate takes from its external libraries:
the base point `G` (`ED25519_BASEPOINT_POINT`), `hash_point_to_point`,
Keccak-256 (`keccakBytes`, consuming the concatenation of all `update`
calls), `Scalar::from_bytes_mod_order`, the canonical 32-byte scalar
encoding (`Scalar::to_bytes` / `as_bytes`) and point compression. -/
structure Primitives (S P : Type) where
  G : P
  hashToPoint : P → P
  keccakBytes : Bytes → Bytes
  fromBytesModOrder : Bytes → S
  toBytes : S → Bytes
  compress : P → Bytes

variable {S P : Type}

/-- Keccak-256 of `input`, reduced to a scalar. -/
def hashToScalar (pr : Primitives S P) (input : Bytes) : S :=
  pr.fromBytesModOrder (pr.keccakBytes input)

/-- ASCII of `"CLSAG_agg_0"`. -/
def HASH_KEY_CLSAG_AGG_0 : Bytes := [67, 76, 83, 65, 71, 95, 97, 103, 103, 95, 48]

/-- ASCII of `"CLSAG_agg_1"`. -/
def HASH_KEY_CLSAG_AGG_1 : Bytes := [67, 76, 83, 65, 71, 95, 97, 103, 103, 95, 49]

/-- ASCII of `"CLSAG_round"`. -/
def HASH_KEY_CLSAG_ROUND : Bytes := [67, 76, 83, 65, 71, 95, 114, 111, 117, 110, 100]

/-- Modelled from the spec: the `Ring` container (module `ring`, whose file is
not under src/) is a fixed-size ordered sequence of `RING_SIZE` points whose
byte view (`Ring::as_ref`) equals the concatenation of the 32-byte point
compressions in order.  A ring is the indexing function, its byte view is
computed here. -/
def ringBytes (pr : Primitives S P) (ring : Fin RING_SIZE → P) : Bytes :=
  (List.finRange RING_SIZE).flatMap fun i => pr.compress (ring i)

/-- The pair of aggregation scalars `mu_P`, `mu_C`. -/
structure AggregationHashes (S : Type) where
  mu_P : S
  mu_C : S

/-- `AggregationHashes::hash`: Keccak-256 of
`domain ‖ ring ‖ commitment_ring ‖ I ‖ z_key_image ‖ pseudo_output_commitment`
reduced to a scalar. -/
def AggregationHashes.hash (pr : Primitives S P)
    (domain ringB commitmentRingB iBytes zKeyImageBytes pseudoBytes : Bytes) : S :=
  hashToScalar pr (domain ++ ringB ++ commitmentRingB ++ iBytes ++ zKeyImageBytes ++ pseudoBytes)

/-- `AggregationHashes::new(ring, commitment_ring, I, pseudo_output_commitment, D)`:
compresses `I`, `D` and the pseudo-output commitment, and hashes them with the
two domain separators.  The byte sequence fed to `hash` is
`domain ‖ ring ‖ commitment_ring ‖ I ‖ D ‖ pseudo_output_commitment`. -/
def AggregationHashes.new (pr : Primitives S P)
    (ring commitment_ring : Fin RING_SIZE → P)
    (I pseudo_output_commitment D : P) : AggregationHashes S :=
  { mu_P := AggregationHashes.hash pr HASH_KEY_CLSAG_AGG_0
      (ringBytes pr ring) (ringBytes pr commitment_ring)
      (pr.compress I) (pr.compress D) (pr.compress pseudo_output_commitment)
    mu_C := AggregationHashes.hash pr HASH_KEY_CLSAG_AGG_1
      (ringBytes pr ring) (ringBytes pr commitment_ring)
      (pr.compress I) (pr.compress D) (pr.compress pseudo_output_commitment) }

/-- `compute_L`: `s_i * G + (h_prev * mu_P) * pk_i + (h_prev * mu_C) * adjusted_commitment_i`. -/
def compute_L (pr : Primitives S P) [Field S] [AddCommGroup P] [Module S P]
    (h_prev : S) (mus : AggregationHashes S) (s_i : S)
    (pk_i adjusted_commitment_i : P) : P :=
  let c_p := h_prev * mus.mu_P
  let c_c := h_prev * mus.mu_C
  s_i • pr.G + c_p • pk_i + c_c • adjusted_commitment_i

/-- `compute_R`: `s_i * H_p(pk_i) + (h_prev * mu_P) * I + (h_prev * mu_C) * D`. -/
def compute_R (pr : Primitives S P) [Field S] [AddCommGroup P] [Module S P]
    (h_prev : S) (mus : AggregationHashes S) (pk_i : P) (s_i : S)
    (I D : P) : P :=
  let c_p := h_prev * mus.mu_P
  let c_c := h_prev * mus.mu_C
  s_i • pr.hashToPoint pk_i + c_p • I + c_c • D

/-- `challenge`: Keccak-256 of `prefix ‖ L_i ‖ R_i` reduced to a scalar.  The
source returns `Result<Scalar>` but is infallible (always `Ok`), so the
embedding returns the scalar directly. -/
def challenge (pr : Primitives S P) [Field S] [AddCommGroup P] [Module S P]
    (pre : Bytes) (s_i : S) (pk_i adjusted_commitment_i D : P)
    (h_prev : S) (I : P) (mus : AggregationHashes S) : S :=
  let L_i := compute_L pr h_prev mus s_i pk_i adjusted_commitment_i
  let R_i := compute_R pr h_prev mus pk_i s_i I D
  hashToScalar pr (pre ++ pr.compress L_i ++ pr.compress R_i)

/-- `clsag_round_hash_prefix` from the source (renamed): the hash input common
to every round, `"CLSAG_round" ‖ ring ‖ commitment_ring ‖ pseudo_output_commitment ‖ msg`. -/
def clsag_round_hash_pre (pr : Primitives S P)
    (ringB commitmentRingB : Bytes) (pseudo_output_commitment : P) (msg : Bytes) : Bytes :=
  HASH_KEY_CLSAG_ROUND ++ ringB ++ commitmentRingB ++ pr.compress pseudo_output_commitment ++ msg

/-- The signature data type: `responses: [Scalar; RING_SIZE]`, `h_0`, key image
`I` and commitment key image `D`. -/
structure Signature (S P : Type) where
  responses : Fin RING_SIZE → S
  h_0 : S
  I : P
  D : P

/-- The initial challenge `h_0` computed inside `sign`: Keccak-256 of
`prefix ‖ L ‖ R` reduced to a scalar. -/
def sign_h_0 (pr : Primitives S P)
    (ring commitment_ring : Fin RING_SIZE → P) (pseudo_output_commitment : P)
    (msg : Bytes) (L R : P) : S :=
  hashToScalar pr
    (clsag_round_hash_pre pr (ringBytes pr ring) (ringBytes pr commitment_ring)
        pseudo_output_commitment msg
      ++ pr.compress L ++ pr.compress R)

/-- The challenge `h_last` computed inside `sign`: the fold over the decoy
responses.  At fold index `i` (zero-based, as produced by `enumerate`) the
source takes `pk_i = ring[i + 1]` and
`adjusted_commitment_i = commitment_ring[i] - pseudo_output_commitment`,
and mixes in `D_inv_8 = (8⁻¹ z) • H_p_pk`.  The aggregation hashes are built by
`AggregationHashes::new(&ring, &commitment_ring, I, pseudo_output_commitment, H_p_pk)`,
whose last argument is `H_p_pk`. -/
def sign_h_last (pr : Primitives S P) [Field S] [AddCommGroup P] [Module S P]
    (fake_responses : Fin (RING_SIZE - 1) → S)
    (ring commitment_ring : Fin RING_SIZE → P)
    (z : S) (H_p_pk pseudo_output_commitment L R I : P) (msg : Bytes) : S :=
  let D := z • H_p_pk
  let D_inv_8 := (8 : S)⁻¹ • D
  let pre := clsag_round_hash_pre pr (ringBytes pr ring) (ringBytes pr commitment_ring)
    pseudo_output_commitment msg
  let mus := AggregationHashes.new pr ring commitment_ring I pseudo_output_commitment H_p_pk
  (List.finRange (RING_SIZE - 1)).foldl
    (fun h_prev i =>
      let pk_i := ring i.succ
      let adjusted_commitment_i := commitment_ring i.castSucc - pseudo_output_commitment
      challenge pr pre (fake_responses i) pk_i adjusted_commitment_i D_inv_8 h_prev I mus)
    (sign_h_0 pr ring commitment_ring pseudo_output_commitment msg L R)

/-- `sign`: the CLSAG signing kernel.  `D = z • H_p_pk`; the response array is
the ten fake responses in order followed by
`s_last = alpha - h_last * (mu_P * signing_key + mu_C * z)`.  The source
returns `Result<Signature>` but is infallible, so the embedding returns the
signature directly. -/
def sign (pr : Primitives S P) [Field S] [AddCommGroup P] [Module S P]
    (fake_responses : Fin (RING_SIZE - 1) → S)
    (ring commitment_ring : Fin RING_SIZE → P)
    (z : S) (H_p_pk pseudo_output_commitment L R I : P) (msg : Bytes)
    (signing_key alpha : S) : Signature S P :=
  let D := z • H_p_pk
  let mus := AggregationHashes.new pr ring commitment_ring I pseudo_output_commitment H_p_pk
  let h_last := sign_h_last pr fake_responses ring commitment_ring z H_p_pk
    pseudo_output_commitment L R I msg
  let s_last := alpha - h_last * (mus.mu_P * signing_key + mus.mu_C * z)
  { responses := Fin.snoc fake_responses s_last
    h_0 := sign_h_0 pr ring commitment_ring pseudo_output_commitment msg L R
    I := I
    D := D }

/-- `AdaptorSignature`. -/
structure AdaptorSignature (S P : Type) where
  s_0 : S
  fake_responses : Fin (RING_SIZE - 1) → S
  h_0 : S
  I : P
  D : P

/-- `HalfAdaptorSignature`. -/
structure HalfAdaptorSignature (S P : Type) where
  s_0_half : S
  fake_responses : Fin (RING_SIZE - 1) → S
  h_0 : S
  I : P
  D : P

/-- `HalfAdaptorSignature::complete`. -/
def HalfAdaptorSignature.complete [Add S] (h : HalfAdaptorSignature S P)
    (s_other_half : S) : AdaptorSignature S P :=
  { s_0 := h.s_0_half + s_other_half
    fake_responses := h.fake_responses
    h_0 := h.h_0
    I := h.I
    D := h.D }

/-- `AdaptorSignature::adapt`: the response array is the fake responses
followed by `r_last = s_0 + y`. -/
def AdaptorSignature.adapt [Add S] (a : AdaptorSignature S P) (y : S) : Signature S P :=
  let r_last := a.s_0 + y
  { responses := Fin.snoc a.fake_responses r_last
    h_0 := a.h_0
    I := a.I
    D := a.D }

/-- The body of the per-response loop of the test-only `Signature::verify`: it
evaluates `challenge` on arguments several of which are `todo!()`, so the body
panics before producing a challenge; a panic is modelled as `Option.none`. -/
def verifyLoopBody (_h_prev _s_i : S) : Option S :=
  none

/-- The test-only `Signature::verify`: folds the (panicking) loop body over the
eleven responses and then compares the final challenge with `h_0`. -/
def Signature.verify [DecidableEq S] (sig : Signature S P)
    (_ring : Fin RING_SIZE → P) (_msg : Bytes) : Option Bool :=
  ((List.finRange RING_SIZE).foldlM (fun h i => verifyLoopBody h (sig.responses i)) sig.h_0).map
    fun h => decide (h = sig.h_0)

/-- `monero::util::ringct::Clsag` as far as the conversion populates it; each
`Key { key: [u8; 32] }` is modelled as its byte string. -/
structure Clsag where
  s : List Bytes
  c1 : Bytes
  D : Bytes

/-- `From<Signature> for Clsag`: `s` maps each response (in storage order) to
its bytes, `c1` is the bytes of `h_0`, `D` is the compressed point `D`. -/
def Signature.toClsag (pr : Primitives S P) (sig : Signature S P) : Clsag :=
  { s := (List.finRange RING_SIZE).map fun i => pr.toBytes (sig.responses i)
    c1 := pr.toBytes sig.h_0
    D := pr.compress sig.D }

/-- The two error kinds produced with `bail!` at protocol step boundaries. -/
inductive ProtoError
  | InvalidDleq
  | CommitmentMismatch
  deriving DecidableEq

/-- `DleqProof`. -/
structure DleqProof (S : Type) where
  s : S
  c : S

/-- `DleqProof::new(G, xG, H, xH, x, rng)`; the random nonce `r` drawn from the
RNG is an explicit argument. -/
def DleqProof.new (pr : Primitives S P) [Field S] [AddCommGroup P] [Module S P]
    (G xG H xH : P) (x r : S) : DleqProof S :=
  let rG := r • G
  let rH := r • H
  let c := hashToScalar pr
    (pr.compress G ++ pr.compress xG ++ pr.compress H ++ pr.compress xH
      ++ pr.compress rG ++ pr.compress rH)
  { s := r + c * x, c := c }

/-- `DleqProof::verify(G, xG, H, xH)`: recompute `rG = s*G + (-c)*xG`,
`rH = s*H + (-c)*xH`, rehash, and fail with `InvalidDleq` when the challenge
disagrees. -/
def DleqProof.verify (pr : Primitives S P) [Field S] [DecidableEq S]
    [AddCommGroup P] [Module S P]
    (p : DleqProof S) (G xG H xH : P) : Except ProtoError Unit :=
  let rG := p.s • G + (-p.c) • xG
  let rH := p.s • H + (-p.c) • xH
  let c_prime := hashToScalar pr
    (pr.compress G ++ pr.compress xG ++ pr.compress H ++ pr.compress xH
      ++ pr.compress rG ++ pr.compress rH)
  if p.c = c_prime then Except.ok () else Except.error ProtoError.InvalidDleq

/-- `Commitment`: a 32-byte Keccak digest. -/
structure Commitment where
  bytes : Bytes
  deriving DecidableEq

/-- `Commitment::new`: Keccak-256 of the concatenated canonical bytes of the
ten fake responses followed by the compressions of `I_a`, `I_hat_a`, `T_a`. -/
def Commitment.new (pr : Primitives S P)
    (fake_responses : Fin (RING_SIZE - 1) → S)
    (I_a I_hat_a T_a : P) : Commitment :=
  let fakeBytes := (List.finRange (RING_SIZE - 1)).flatMap fun i => pr.toBytes (fake_responses i)
  { bytes := pr.keccakBytes
      (fakeBytes ++ pr.compress I_a ++ pr.compress I_hat_a ++ pr.compress T_a) }

/-- `Opening`: the pre-image tuple of a commitment. -/
structure Opening (S P : Type) where
  fake_responses : Fin (RING_SIZE - 1) → S
  I_a : P
  I_hat_a : P
  T_a : P

/-- `Opening::new`. -/
def Opening.new (fake_responses : Fin (RING_SIZE - 1) → S) (I_a I_hat_a T_a : P) :
    Opening S P :=
  { fake_responses := fake_responses, I_a := I_a, I_hat_a := I_hat_a, T_a := T_a }

/-- `Opening::open` (renamed: `open` is reserved): recompute the commitment
from the stored tuple and fail with `CommitmentMismatch` unless it equals the
received commitment. -/
def Opening.open_ (pr : Primitives S P) (o : Opening S P) (commitment : Commitment) :
    Except ProtoError ((Fin (RING_SIZE - 1) → S) × P × P × P) :=
  let self_commitment := Commitment.new pr o.fake_responses o.I_a o.I_hat_a o.T_a
  if self_commitment = commitment then
    Except.ok (o.fake_responses, o.I_a, o.I_hat_a, o.T_a)
  else
    Except.error ProtoError.CommitmentMismatch

/-- `Message0` (Alice to Bob). -/
structure Message0 (S : Type) where
  c_a : Commitment
  pi_a : DleqProof S

/-- `Message1` (Bob to Alice). -/
structure Message1 (S P : Type) where
  I_b : P
  T_b : P
  I_hat_b : P
  pi_b : DleqProof S

/-- `Message2` (Alice to Bob). -/
structure Message2 (S P : Type) where
  d_a : Opening S P
  s_0_a : S

/-- `Message3` (Bob to Alice). -/
structure Message3 (S : Type) where
  s_0_b : S

/-- `Alice0`. -/
structure Alice0 (S P : Type) where
  ring : Fin RING_SIZE → P
  fake_responses : Fin (RING_SIZE - 1) → S
  commitment_ring : Fin RING_SIZE → P
  pseudo_output_commitment : P
  msg : Bytes
  R_a : P
  R_prime_a : P
  s_prime_a : S
  alpha_a : S
  H_p_pk : P
  I_a : P
  I_hat_a : P
  T_a : P

/-- `Alice0::new`; the fake responses and the nonce `alpha_a` drawn from the
RNG are explicit arguments.  `H_p_pk = H_p(ring[0])`, `I_a = s_prime_a • H_p_pk`,
`I_hat_a = alpha_a • H_p_pk`, `T_a = alpha_a • G`.  The source returns
`Result<Self>` but is infallible, so the embedding returns the state
directly. -/
def Alice0.new (pr : Primitives S P) [Field S] [AddCommGroup P] [Module S P]
    (ring : Fin RING_SIZE → P) (msg : Bytes)
    (commitment_ring : Fin RING_SIZE → P)
    (pseudo_output_commitment R_a R_prime_a : P) (s_prime_a : S)
    (fake_responses : Fin (RING_SIZE - 1) → S) (alpha_a : S) : Alice0 S P :=
  let p_k := ring 0
  let H_p_pk := pr.hashToPoint p_k
  { ring := ring
    fake_responses := fake_responses
    commitment_ring := commitment_ring
    pseudo_output_commitment := pseudo_output_commitment
    msg := msg
    R_a := R_a
    R_prime_a := R_prime_a
    s_prime_a := s_prime_a
    alpha_a := alpha_a
    H_p_pk := H_p_pk
    I_a := s_prime_a • H_p_pk
    I_hat_a := alpha_a • H_p_pk
    T_a := alpha_a • pr.G }

/-- `Alice0::next_message`; the DLEQ nonce drawn from the RNG is the explicit
argument `r`. -/
def Alice0.next_message (pr : Primitives S P) [Field S] [AddCommGroup P] [Module S P]
    (a : Alice0 S P) (r : S) : Message0 S :=
  { pi_a := DleqProof.new pr pr.G a.T_a a.H_p_pk a.I_hat_a a.alpha_a r
    c_a := Commitment.new pr a.fake_responses a.I_a a.I_hat_a a.T_a }

/-- `Alice1`. -/
structure Alice1 (S P : Type) where
  fake_responses : Fin (RING_SIZE - 1) → S
  I_a : P
  I_hat_a : P
  T_a : P
  sig : HalfAdaptorSignature S P

/-- `Alice0::receive(Message1, z)`: verify `pi_b`, run the kernel with the
spliced nonce points `T_a + T_b + R_a` and `I_hat_a + I_hat_b + R_prime_a` and
the joint key image `I_a + I_b`, and keep `responses[10]` as the half
response. -/
def Alice0.receive (pr : Primitives S P) [Field S] [DecidableEq S]
    [AddCommGroup P] [Module S P]
    (a : Alice0 S P) (m : Message1 S P) (z : S) : Except ProtoError (Alice1 S P) :=
  match DleqProof.verify pr m.pi_b pr.G m.T_b a.H_p_pk m.I_hat_b with
  | Except.error e => Except.error e
  | Except.ok _ =>
    let sig := sign pr a.fake_responses a.ring a.commitment_ring z a.H_p_pk
      a.pseudo_output_commitment (a.T_a + m.T_b + a.R_a)
      (a.I_hat_a + m.I_hat_b + a.R_prime_a) (a.I_a + m.I_b) a.msg
      a.s_prime_a a.alpha_a
    let sigHalf : HalfAdaptorSignature S P :=
      { s_0_half := sig.responses (Fin.last (RING_SIZE - 1))
        fake_responses := a.fake_responses
        h_0 := sig.h_0
        I := sig.I
        D := sig.D }
    Except.ok
      { fake_responses := a.fake_responses
        I_a := a.I_a
        I_hat_a := a.I_hat_a
        T_a := a.T_a
        sig := sigHalf }

/-- `Alice1::next_message`. -/
def Alice1.next_message (a : Alice1 S P) : Message2 S P :=
  { d_a := Opening.new a.fake_responses a.I_a a.I_hat_a a.T_a
    s_0_a := a.sig.s_0_half }

/-- `Alice2`. -/
structure Alice2 (S P : Type) where
  adaptor_sig : AdaptorSignature S P

/-- `Alice1::receive(Message3)`. -/
def Alice1.receive [Add S] (a : Alice1 S P) (m : Message3 S) : Alice2 S P :=
  { adaptor_sig := a.sig.complete m.s_0_b }

/-- `Bob0`. -/
structure Bob0 (S P : Type) where
  ring : Fin RING_SIZE → P
  msg : Bytes
  commitment_ring : Fin RING_SIZE → P
  pseudo_output_commitment : P
  R_a : P
  R_prime_a : P
  s_b : S
  alpha_b : S
  H_p_pk : P
  I_b : P
  I_hat_b : P
  T_b : P

/-- `Bob0::new`; the nonce `alpha_b` drawn from the RNG is an explicit
argument. -/
def Bob0.new (pr : Primitives S P) [Field S] [AddCommGroup P] [Module S P]
    (ring : Fin RING_SIZE → P) (msg : Bytes)
    (commitment_ring : Fin RING_SIZE → P)
    (pseudo_output_commitment R_a R_prime_a : P) (s_b : S)
    (alpha_b : S) : Bob0 S P :=
  let p_k := ring 0
  let H_p_pk := pr.hashToPoint p_k
  { ring := ring
    msg := msg
    commitment_ring := commitment_ring
    pseudo_output_commitment := pseudo_output_commitment
    R_a := R_a
    R_prime_a := R_prime_a
    s_b := s_b
    alpha_b := alpha_b
    H_p_pk := H_p_pk
    I_b := s_b • H_p_pk
    I_hat_b := alpha_b • H_p_pk
    T_b := alpha_b • pr.G }

/-- `Bob1`. -/
structure Bob1 (S P : Type) where
  ring : Fin RING_SIZE → P
  msg : Bytes
  commitment_ring : Fin RING_SIZE → P
  pseudo_output_commitment : P
  R_a : P
  R_prime_a : P
  s_b : S
  alpha_b : S
  H_p_pk : P
  I_b : P
  I_hat_b : P
  T_b : P
  pi_a : DleqProof S
  c_a : Commitment

/-- `Bob0::receive(Message0)`. -/
def Bob0.receive (b : Bob0 S P) (m : Message0 S) : Bob1 S P :=
  { ring := b.ring
    msg := b.msg
    commitment_ring := b.commitment_ring
    pseudo_output_commitment := b.pseudo_output_commitment
    R_a := b.R_a
    R_prime_a := b.R_prime_a
    s_b := b.s_b
    alpha_b := b.alpha_b
    H_p_pk := b.H_p_pk
    I_b := b.I_b
    I_hat_b := b.I_hat_b
    T_b := b.T_b
    pi_a := m.pi_a
    c_a := m.c_a }

/-- `Bob1::next_message`; the DLEQ nonce drawn from the RNG is the explicit
argument `r`. -/
def Bob1.next_message (pr : Primitives S P) [Field S] [AddCommGroup P] [Module S P]
    (b : Bob1 S P) (r : S) : Message1 S P :=
  { I_b := b.I_b
    T_b := b.T_b
    I_hat_b := b.I_hat_b
    pi_b := DleqProof.new pr pr.G b.T_b b.H_p_pk b.I_hat_b b.alpha_b r }

/-- `Bob2`. -/
structure Bob2 (S P : Type) where
  s_0_b : S
  adaptor_sig : AdaptorSignature S P

/-- `Bob1::receive(Message2, z)`: open the commitment (`CommitmentMismatch` on
failure), verify `pi_a` (`InvalidDleq` on failure), run the kernel with
`x = s_b`, `alpha = alpha_b` and the spliced `L`, `R`, `I`, keep
`responses[10]` as `s_0_b`, and complete with Alice's half. -/
def Bob1.receive (pr : Primitives S P) [Field S] [DecidableEq S]
    [AddCommGroup P] [Module S P]
    (b : Bob1 S P) (m : Message2 S P) (z : S) : Except ProtoError (Bob2 S P) :=
  match Opening.open_ pr m.d_a b.c_a with
  | Except.error e => Except.error e
  | Except.ok (fake_responses, I_a, I_hat_a, T_a) =>
    match DleqProof.verify pr b.pi_a pr.G T_a b.H_p_pk I_hat_a with
    | Except.error e => Except.error e
    | Except.ok _ =>
      let I := I_a + b.I_b
      let sig := sign pr fake_responses b.ring b.commitment_ring z b.H_p_pk
        b.pseudo_output_commitment (T_a + b.T_b + b.R_a)
        (I_hat_a + b.I_hat_b + b.R_prime_a) I b.msg b.s_b b.alpha_b
      let s_0_b := sig.responses (Fin.last (RING_SIZE - 1))
      let sigHalf : HalfAdaptorSignature S P :=
        { s_0_half := s_0_b
          fake_responses := fake_responses
          h_0 := sig.h_0
          I := sig.I
          D := sig.D }
      Except.ok { s_0_b := s_0_b, adaptor_sig := sigHalf.complete m.s_0_a }

/-- `Bob2::next_message`. -/
def Bob2.next_message (b : Bob2 S P) : Message3 S :=
  { s_0_b := b.s_0_b }

/-- The honest four-message exchange, exactly as the crate's own test runs it:
both parties constructed over the same shared inputs, every message produced by
the corresponding `next_message` and delivered unchanged.  Returns Alice's
final adaptor signature paired with Bob's. -/
def honestRun (pr : Primitives S P) [Field S] [DecidableEq S]
    [AddCommGroup P] [Module S P]
    (ring commitment_ring : Fin RING_SIZE → P)
    (pseudo_output_commitment R_a R_prime_a : P) (msg : Bytes)
    (s_prime_a s_b z : S) (fake_responses : Fin (RING_SIZE - 1) → S)
    (alpha_a alpha_b ra rb : S) :
    Except ProtoError (AdaptorSignature S P × AdaptorSignature S P) :=
  let alice0 := Alice0.new pr ring msg commitment_ring pseudo_output_commitment
    R_a R_prime_a s_prime_a fake_responses alpha_a
  let bob0 := Bob0.new pr ring msg commitment_ring pseudo_output_commitment
    R_a R_prime_a s_b alpha_b
  let m0 := alice0.next_message pr ra
  let bob1 := bob0.receive m0
  let m1 := bob1.next_message pr rb
  match Alice0.receive pr alice0 m1 z with
  | Except.error e => Except.error e
  | Except.ok alice1 =>
    let m2 := alice1.next_message
    match Bob1.receive pr bob1 m2 z with
    | Except.error e => Except.error e
    | Except.ok bob2 =>
      let m3 := bob2.next_message
      let alice2 := alice1.receive m3
      Except.ok (alice2.adaptor_sig, bob2.adaptor_sig)

/-- Stated from the spec (section 4.D, step 2), for comparison with the code:
the aggregation scalar with the given domain separator, whose fourth hash
input is a commitment image point `D`. -/
def specAggHash (pr : Primitives S P) (ring commitment_ring : Fin RING_SIZE → P)
    (I D pseudo_output_commitment : P) (domain : Bytes) : S :=
  AggregationHashes.hash pr domain (ringBytes pr ring) (ringBytes pr commitment_ring)
    (pr.compress I) (pr.compress D) (pr.compress pseudo_output_commitment)

/-- Stated from the spec (section 4.D, step 5), for comparison with the code:
one step of the per-position challenge recurrence at ring position `i` with
response `s_i`:
`L_i = s_i•G + (h_prev·mu_P)•P_i + (h_prev·mu_C)•(C_i − C_pseudo)`,
`R_i = s_i•H_p(P_i) + (h_prev·mu_P)•I + (h_prev·mu_C)•Dp`, and the new
challenge is the hash of the common round input followed by `L_i ‖ R_i`. -/
def specChallengeStep (pr : Primitives S P) [Field S] [AddCommGroup P] [Module S P]
    (ring commitment_ring : Fin RING_SIZE → P) (pseudo_output_commitment : P)
    (msg : Bytes) (I Dp : P) (mu_P mu_C : S)
    (i : Fin RING_SIZE) (s_i : S) (h_prev : S) : S :=
  let L_i := s_i • pr.G + (h_prev * mu_P) • ring i
    + (h_prev * mu_C) • (commitment_ring i - pseudo_output_commitment)
  let R_i := s_i • pr.hashToPoint (ring i) + (h_prev * mu_P) • I + (h_prev * mu_C) • Dp
  hashToScalar pr
    (clsag_round_hash_pre pr (ringBytes pr ring) (ringBytes pr commitment_ring)
        pseudo_output_commitment msg
      ++ pr.compress L_i ++ pr.compress R_i)

/-- Stated from the spec and claim C1, for comparison with the code: feed the
eleven responses of a signature back through the per-position recurrence,
response `k` at ring position `k + 1 mod N`, starting from the challenge
`c_1 = h_0`.  The result is the challenge after `N` iterations, which claim C1
says equals `h_0` again. -/
def specWalk (pr : Primitives S P) [Field S] [AddCommGroup P] [Module S P]
    (ring commitment_ring : Fin RING_SIZE → P) (pseudo_output_commitment : P)
    (msg : Bytes) (I Dp : P) (mu_P mu_C : S) (sig : Signature S P) : S :=
  (List.finRange RING_SIZE).foldl
    (fun h k => specChallengeStep pr ring commitment_ring pseudo_output_commitment
      msg I Dp mu_P mu_C (k + 1) (sig.responses k) h)
    sig.h_0

/-- Stated from claim C2, for comparison with the code: `mu_P` with the fourth
hash input the commitment image `z•H_p(P_0)` computed from the `z` passed to
`sign`. -/
def mu_P_claim (pr : Primitives S P) [Field S] [AddCommGroup P] [Module S P]
    (ring commitment_ring : Fin RING_SIZE → P)
    (I pseudo_output_commitment : P) (z : S) (H_p_pk : P) : S :=
  AggregationHashes.hash pr HASH_KEY_CLSAG_AGG_0 (ringBytes pr ring)
    (ringBytes pr commitment_ring) (pr.compress I) (pr.compress (z • H_p_pk))
    (pr.compress pseudo_output_commitment)

/-- Stated from claim C3, for comparison with the code: the decoy-walk
challenge fold with the commitment-ring member taken at the same index as the
ring member (`C_i` paired with `P_i`), everything else exactly as in
`sign_h_last`. -/
def sign_h_last_claim (pr : Primitives S P) [Field S] [AddCommGroup P] [Module S P]
    (fake_responses : Fin (RING_SIZE - 1) → S)
    (ring commitment_ring : Fin RING_SIZE → P)
    (z : S) (H_p_pk pseudo_output_commitment L R I : P) (msg : Bytes) : S :=
  let D := z • H_p_pk
  let D_inv_8 := (8 : S)⁻¹ • D
  let pre := clsag_round_hash_pre pr (ringBytes pr ring) (ringBytes pr commitment_ring)
    pseudo_output_commitment msg
  let mus := AggregationHashes.new pr ring commitment_ring I pseudo_output_commitment H_p_pk
  (List.finRange (RING_SIZE - 1)).foldl
    (fun h_prev i =>
      let pk_i := ring i.succ
      let adjusted_commitment_i := commitment_ring i.succ - pseudo_output_commitment
      challenge pr pre (fake_responses i) pk_i adjusted_commitment_i D_inv_8 h_prev I mus)
    (sign_h_0 pr ring commitment_ring pseudo_output_commitment msg L R)

/-!
A concrete instantiation of the abstract primitives, used to evaluate the
definitions on explicit inputs: scalars and points both live in the field with
101 elements (a model of the prime-order setting), and the two hash functions
are simple injective-enough byte folds.
-/

instance : Fact (Nat.Prime 101) := ⟨by norm_num⟩

/-- A concrete primitives bundle over `ZMod 101`. -/
def pr0 : Primitives (ZMod 101) (ZMod 101) where
  G := 2
  hashToPoint := fun p => 3 * p + 5
  keccakBytes := fun l => [l.foldl (fun a b => (31 * a + b + 7) % 101) 3]
  fromBytesModOrder := fun l => ((l.headD 0 : Nat) : ZMod 101)
  toBytes := fun s => [s.val]
  compress := fun p => [p.val]

/-- Concrete signing scalar `x = 3`. -/
def xSec : ZMod 101 := 3

/-- Concrete nonce `alpha = 5`. -/
def alpha0 : ZMod 101 := 5

/-- Concrete ring: `P_0 = x•G = 6`, decoys `6 + i`. -/
def ring0 : Fin RING_SIZE → ZMod 101 := fun i => (6 : ZMod 101) + (i.val : ZMod 101)

/-- Concrete commitment ring: `C_i = 20 + 2 i`. -/
def cring0 : Fin RING_SIZE → ZMod 101 := fun i => (20 : ZMod 101) + 2 * (i.val : ZMod 101)

/-- Concrete pseudo-output commitment, equal to `C_0` (so the blinding delta
for claim C1 is `z = 0`, as in the crate's own test). -/
def pseudo0 : ZMod 101 := 20

/-- Concrete `H_p(P_0)`. -/
def Hp0 : ZMod 101 := pr0.hashToPoint (ring0 0)

/-- Concrete key image `I = x•H_p(P_0)`. -/
def I0 : ZMod 101 := xSec • Hp0

/-- Concrete extra nonce point `L = alpha•G`. -/
def L0 : ZMod 101 := alpha0 • pr0.G

/-- Concrete extra nonce point `R = alpha•H_p(P_0)`. -/
def R0 : ZMod 101 := alpha0 • Hp0

/-- Concrete message. -/
def msg0 : Bytes := [1, 2, 3]

/-- Concrete fake responses `s_i = i + 1`. -/
def fakes0 : Fin (RING_SIZE - 1) → ZMod 101 := fun i => ((i.val : ZMod 101) + 1)

/-- The success value of `Bob1::receive`, spelled out: the kernel is run with
`x = s_b`, `alpha = alpha_b`, the spliced nonce points
`T_a + T_b + R_a` and `I_hat_a + I_hat_b + R_prime_a`, the joint key image
`I_a + I_b`, and the opened fake responses; `responses[10]` is kept as
`s_0_b` and the half signature is completed with Alice's half. -/
def bob1ReceiveOk (pr : Primitives S P) [Field S] [DecidableEq S]
    [AddCommGroup P] [Module S P]
    (b : Bob1 S P) (m : Message2 S P) (z : S) : Bob2 S P :=
  let sig := sign pr m.d_a.fake_responses b.ring b.commitment_ring z b.H_p_pk
    b.pseudo_output_commitment (m.d_a.T_a + b.T_b + b.R_a)
    (m.d_a.I_hat_a + b.I_hat_b + b.R_prime_a) (m.d_a.I_a + b.I_b) b.msg b.s_b b.alpha_b
  let s_0_b := sig.responses (Fin.last (RING_SIZE - 1))
  { s_0_b := s_0_b
    adaptor_sig := HalfAdaptorSignature.complete
      { s_0_half := s_0_b
        fake_responses := m.d_a.fake_responses
        h_0 := sig.h_0
        I := sig.I
        D := sig.D } m.s_0_a }

/-!
Helper lemmas shared by the claim theorems.
-/

theorem sign_h_0_proj (pr : Primitives S P) [Field S] [AddCommGroup P] [Module S P]
    (fake_responses : Fin (RING_SIZE - 1) → S)
    (ring commitment_ring : Fin RING_SIZE → P)
    (z : S) (H_p_pk pseudo_output_commitment L R I : P) (msg : Bytes)
    (signing_key alpha : S) :
    (sign pr fake_responses ring commitment_ring z H_p_pk pseudo_output_commitment
        L R I msg signing_key alpha).h_0
      = sign_h_0 pr ring commitment_ring pseudo_output_commitment msg L R :=
  rfl

theorem sign_I_proj (pr : Primitives S P) [Field S] [AddCommGroup P] [Module S P]
    (fake_responses : Fin (RING_SIZE - 1) → S)
    (ring commitment_ring : Fin RING_SIZE → P)
    (z : S) (H_p_pk pseudo_output_commitment L R I : P) (msg : Bytes)
    (signing_key alpha : S) :
    (sign pr fake_responses ring commitment_ring z H_p_pk pseudo_output_commitment
        L R I msg signing_key alpha).I = I :=
  rfl

theorem sign_D_proj (pr : Primitives S P) [Field S] [AddCommGroup P] [Module S P]
    (fake_responses : Fin (RING_SIZE - 1) → S)
    (ring commitment_ring : Fin RING_SIZE → P)
    (z : S) (H_p_pk pseudo_output_commitment L R I : P) (msg : Bytes)
    (signing_key alpha : S) :
    (sign pr fake_responses ring commitment_ring z H_p_pk pseudo_output_commitment
        L R I msg signing_key alpha).D = z • H_p_pk :=
  rfl

theorem sign_responses_last (pr : Primitives S P) [Field S] [AddCommGroup P] [Module S P]
    (fake_responses : Fin (RING_SIZE - 1) → S)
    (ring commitment_ring : Fin RING_SIZE → P)
    (z : S) (H_p_pk pseudo_output_commitment L R I : P) (msg : Bytes)
    (signing_key alpha : S) :
    (sign pr fake_responses ring commitment_ring z H_p_pk pseudo_output_commitment
        L R I msg signing_key alpha).responses (Fin.last (RING_SIZE - 1))
      = alpha
        - sign_h_last pr fake_responses ring commitment_ring z H_p_pk
            pseudo_output_commitment L R I msg
          * ((AggregationHashes.new pr ring commitment_ring I pseudo_output_commitment
                H_p_pk).mu_P * signing_key
            + (AggregationHashes.new pr ring commitment_ring I pseudo_output_commitment
                H_p_pk).mu_C * z) :=
  rfl

theorem smul_schnorr_cancel [Field S] [AddCommGroup P] [Module S P]
    (c x r : S) (Q : P) :
    (r + c * x) • Q + (-c) • (x • Q) = r • Q := by
  rw [add_smul, smul_smul, neg_mul, neg_smul]
  exact add_neg_cancel_right _ _

theorem dleq_complete (pr : Primitives S P) [Field S] [DecidableEq S]
    [AddCommGroup P] [Module S P] (G' H' : P) (x r : S) :
    DleqProof.verify pr (DleqProof.new pr G' (x • G') H' (x • H') x r)
        G' (x • G') H' (x • H') = Except.ok () := by
  unfold DleqProof.verify DleqProof.new
  simp only [smul_schnorr_cancel]
  simp

theorem pair_ok_exists (x y : AdaptorSignature S P) (h : y = x) :
    ∃ sig : AdaptorSignature S P,
      (Except.ok (x, y) : Except ProtoError (AdaptorSignature S P × AdaptorSignature S P))
        = Except.ok (sig, sig) :=
  ⟨x, by rw [h]⟩

theorem dleq_verify_cases (pr : Primitives S P) [Field S] [DecidableEq S]
    [AddCommGroup P] [Module S P] (p : DleqProof S) (G xG H xH : P) :
    DleqProof.verify pr p G xG H xH = Except.ok ()
      ∨ DleqProof.verify pr p G xG H xH = Except.error ProtoError.InvalidDleq := by
  unfold DleqProof.verify
  dsimp only
  split
  · exact Or.inl rfl
  · exact Or.inr rfl

/-!
The claim theorems.
-/

/-- C4: for every input to `sign`, the real response equals
`alpha − h_N · (mu_P·x + mu_C·z)` where `h_N` is the challenge after the last
decoy position and `mu_P`, `mu_C` are the aggregation scalars computed in
`sign`; the returned signature carries the `N − 1` fake responses followed by
the real response in the last slot, `c_1 = h_0`, the input key image `I`
unchanged, and `D = z·H_p(P_0)`. -/
theorem C4_sign_output_shape (pr : Primitives S P) [Field S] [AddCommGroup P] [Module S P]
    (fake_responses : Fin (RING_SIZE - 1) → S)
    (ring commitment_ring : Fin RING_SIZE → P)
    (z : S) (H_p_pk pseudo_output_commitment L R I : P) (msg : Bytes)
    (signing_key alpha : S) :
    (sign pr fake_responses ring commitment_ring z H_p_pk pseudo_output_commitment
        L R I msg signing_key alpha).responses (Fin.last (RING_SIZE - 1))
      = alpha
        - sign_h_last pr fake_responses ring commitment_ring z H_p_pk
            pseudo_output_commitment L R I msg
          * ((AggregationHashes.new pr ring commitment_ring I pseudo_output_commitment
                H_p_pk).mu_P * signing_key
            + (AggregationHashes.new pr ring commitment_ring I pseudo_output_commitment
                H_p_pk).mu_C * z)
    ∧ (∀ k : Fin (RING_SIZE - 1),
        (sign pr fake_responses ring commitment_ring z H_p_pk pseudo_output_commitment
            L R I msg signing_key alpha).responses k.castSucc = fake_responses k)
    ∧ (sign pr fake_responses ring commitment_ring z H_p_pk pseudo_output_commitment
        L R I msg signing_key alpha).h_0
      = sign_h_0 pr ring commitment_ring pseudo_output_commitment msg L R
    ∧ (sign pr fake_responses ring commitment_ring z H_p_pk pseudo_output_commitment
        L R I msg signing_key alpha).I = I
    ∧ (sign pr fake_responses ring commitment_ring z H_p_pk pseudo_output_commitment
        L R I msg signing_key alpha).D = z • H_p_pk := by
  refine ⟨rfl, ?_, rfl, rfl, rfl⟩
  intro k
  simp [sign, Fin.snoc_castSucc]

/-- C5: for every adaptor signature and scalar `y`, `adapt` produces a
signature whose real (last-slot) response minus the adaptor's `s_0` is exactly
`y`, and which carries the fake responses, `h_0`, `I` and `D` unchanged. -/
theorem C5_adapt_preserves_and_reveals [Field S] (a : AdaptorSignature S P) (y : S) :
    (a.adapt y).responses (Fin.last (RING_SIZE - 1)) - a.s_0 = y
    ∧ (∀ k : Fin (RING_SIZE - 1), (a.adapt y).responses k.castSucc = a.fake_responses k)
    ∧ (a.adapt y).h_0 = a.h_0
    ∧ (a.adapt y).I = a.I
    ∧ (a.adapt y).D = a.D := by
  refine ⟨?_, ?_, rfl, rfl, rfl⟩
  · show a.s_0 + y - a.s_0 = y
    exact add_sub_cancel_left _ _
  · intro k
    simp [AdaptorSignature.adapt, Fin.snoc_castSucc]

/-- C8: for every witness scalar `x`, nonce scalar `r` and base points `G₁`,
`G₂`, the proof produced by `DleqProof::new` for `X₁ = x·G₁`, `X₂ = x·G₂` is
accepted by `DleqProof::verify` on the same inputs. -/
theorem C8_dleq_completeness (pr : Primitives S P) [Field S] [DecidableEq S]
    [AddCommGroup P] [Module S P] (G₁ G₂ : P) (x r : S) :
    DleqProof.verify pr (DleqProof.new pr G₁ (x • G₁) G₂ (x • G₂) x r)
        G₁ (x • G₁) G₂ (x • G₂) = Except.ok () :=
  dleq_complete pr G₁ G₂ x r

/-- C10: for every signature value, ring and message, the test-only
`Signature::verify` never returns a value: its loop body evaluates arguments
marked to-be-filled (modelled as `Option` failure) already on the first of the
eleven iterations, so the routine fails for all inputs. -/
theorem C10_verify_never_returns [DecidableEq S] (sig : Signature S P)
    (ring : Fin RING_SIZE → P) (msg : Bytes) :
    Signature.verify sig ring msg = none :=
  rfl

/-- C9 (amended): the on-chain conversion emits the `s` field as the bytes of
the stored responses in order — the `N − 1` fake responses first and the real
signer's response in the last slot — `c1` as the bytes of `h_0`, and `D` as
the compressed stored point `D` unchanged. -/
theorem C9_amended_clsag_layout (pr : Primitives S P) [Field S] [AddCommGroup P] [Module S P]
    (fake_responses : Fin (RING_SIZE - 1) → S)
    (ring commitment_ring : Fin RING_SIZE → P)
    (z : S) (H_p_pk pseudo_output_commitment L R I : P) (msg : Bytes)
    (signing_key alpha : S) :
    (Signature.toClsag pr (sign pr fake_responses ring commitment_ring z H_p_pk
        pseudo_output_commitment L R I msg signing_key alpha)).s
      = ((List.finRange (RING_SIZE - 1)).map fun k => pr.toBytes (fake_responses k))
        ++ [pr.toBytes ((sign pr fake_responses ring commitment_ring z H_p_pk
            pseudo_output_commitment L R I msg signing_key alpha).responses
              (Fin.last (RING_SIZE - 1)))]
    ∧ (Signature.toClsag pr (sign pr fake_responses ring commitment_ring z H_p_pk
        pseudo_output_commitment L R I msg signing_key alpha)).c1
      = pr.toBytes ((sign pr fake_responses ring commitment_ring z H_p_pk
          pseudo_output_commitment L R I msg signing_key alpha).h_0)
    ∧ (Signature.toClsag pr (sign pr fake_responses ring commitment_ring z H_p_pk
        pseudo_output_commitment L R I msg signing_key alpha)).D
      = pr.compress ((sign pr fake_responses ring commitment_ring z H_p_pk
          pseudo_output_commitment L R I msg signing_key alpha).D) :=
  ⟨rfl, rfl, rfl⟩

/-- C7: `Bob1::receive` fails with `CommitmentMismatch` exactly when the
received opening does not recompute to the stored commitment, fails with
`InvalidDleq` exactly when the opening matches but the stored proof `pi_a`
does not verify against `(G, T_a, H_p(P_0), I_hat_a)`, and succeeds exactly
when both checks pass, in which case the result is the half signature computed
with `x = s_b`, `alpha = alpha_b` and the spliced `L`, `R`, `I`. -/
theorem C7_bob1_receive_behaviour (pr : Primitives S P) [Field S] [DecidableEq S]
    [AddCommGroup P] [Module S P] (b : Bob1 S P) (m : Message2 S P) (z : S) :
    (Bob1.receive pr b m z = Except.error ProtoError.CommitmentMismatch
      ↔ ¬ Commitment.new pr m.d_a.fake_responses m.d_a.I_a m.d_a.I_hat_a m.d_a.T_a = b.c_a)
    ∧ (Bob1.receive pr b m z = Except.error ProtoError.InvalidDleq
      ↔ (Commitment.new pr m.d_a.fake_responses m.d_a.I_a m.d_a.I_hat_a m.d_a.T_a = b.c_a
          ∧ ¬ DleqProof.verify pr b.pi_a pr.G m.d_a.T_a b.H_p_pk m.d_a.I_hat_a
              = Except.ok ()))
    ∧ (∀ b2 : Bob2 S P, Bob1.receive pr b m z = Except.ok b2
      ↔ (Commitment.new pr m.d_a.fake_responses m.d_a.I_a m.d_a.I_hat_a m.d_a.T_a = b.c_a
          ∧ DleqProof.verify pr b.pi_a pr.G m.d_a.T_a b.H_p_pk m.d_a.I_hat_a = Except.ok ()
          ∧ b2 = bob1ReceiveOk pr b m z)) := by
  unfold Bob1.receive Opening.open_
  by_cases hc : Commitment.new pr m.d_a.fake_responses m.d_a.I_a m.d_a.I_hat_a m.d_a.T_a = b.c_a
  · rcases dleq_verify_cases pr b.pi_a pr.G m.d_a.T_a b.H_p_pk m.d_a.I_hat_a with hd | hd
    · simp [hc, hd, bob1ReceiveOk, eq_comm]
    · simp [hc, hd]
  · simp [hc]

/-- C6: when Alice and Bob are constructed over the same shared inputs and the
four messages are exchanged honestly, Alice's final adaptor signature and
Bob's final adaptor signature are identical. -/
theorem C6_two_party_same_adaptor_signature (pr : Primitives S P) [Field S] [DecidableEq S]
    [AddCommGroup P] [Module S P]
    (ring commitment_ring : Fin RING_SIZE → P)
    (pseudo_output_commitment R_a R_prime_a : P) (msg : Bytes)
    (s_prime_a s_b z : S) (fake_responses : Fin (RING_SIZE - 1) → S)
    (alpha_a alpha_b ra rb : S) :
    ∃ sig : AdaptorSignature S P,
      honestRun pr ring commitment_ring pseudo_output_commitment R_a R_prime_a msg
          s_prime_a s_b z fake_responses alpha_a alpha_b ra rb
        = Except.ok (sig, sig) := by
  unfold honestRun
  dsimp only [Alice0.new, Bob0.new, Alice0.next_message, Bob0.receive, Bob1.next_message,
    Alice0.receive, Alice1.next_message, Bob1.receive, Alice1.receive, Bob2.next_message,
    Opening.open_, Opening.new, HalfAdaptorSignature.complete]
  rw [dleq_complete]
  dsimp only
  rw [if_pos rfl]
  dsimp only
  rw [dleq_complete]
  dsimp only
  refine pair_ok_exists _ _ ?_
  simp [sign_h_0_proj, sign_I_proj, sign_D_proj, AdaptorSignature.mk.injEq, add_comm]

set_option maxRecDepth 1000000

/-- C1: the kernel-closure claim fails on the code.  At the concrete valid
input below — real signer at index 0 (`P_0 = x•G`), blinding delta `z = 0`
(`C_0 = C_pseudo`), key image `I = x•H_p(P_0)`, extra nonce points
`L = alpha•G`, `R = alpha•H_p(P_0)` — feeding the responses of the signature
returned by `sign` back through the per-position recurrence of the spec,
starting from `c_1 = h_0`, does not return to `h_0` after `N` iterations. -/
theorem C1_kernel_closure_fails :
    ring0 0 = xSec • pr0.G
    ∧ cring0 0 - pseudo0 = (0 : ZMod 101) • pr0.G
    ∧ Hp0 = pr0.hashToPoint (ring0 0)
    ∧ I0 = xSec • Hp0
    ∧ L0 = alpha0 • pr0.G
    ∧ R0 = alpha0 • Hp0
    ∧ ¬ specWalk pr0 ring0 cring0 pseudo0 msg0
          (sign pr0 fakes0 ring0 cring0 0 Hp0 pseudo0 L0 R0 I0 msg0 xSec alpha0).I
          ((8 : ZMod 101)⁻¹
            • (sign pr0 fakes0 ring0 cring0 0 Hp0 pseudo0 L0 R0 I0 msg0 xSec alpha0).D)
          (specAggHash pr0 ring0 cring0
            (sign pr0 fakes0 ring0 cring0 0 Hp0 pseudo0 L0 R0 I0 msg0 xSec alpha0).I
            (sign pr0 fakes0 ring0 cring0 0 Hp0 pseudo0 L0 R0 I0 msg0 xSec alpha0).D
            pseudo0 HASH_KEY_CLSAG_AGG_0)
          (specAggHash pr0 ring0 cring0
            (sign pr0 fakes0 ring0 cring0 0 Hp0 pseudo0 L0 R0 I0 msg0 xSec alpha0).I
            (sign pr0 fakes0 ring0 cring0 0 Hp0 pseudo0 L0 R0 I0 msg0 xSec alpha0).D
            pseudo0 HASH_KEY_CLSAG_AGG_1)
          (sign pr0 fakes0 ring0 cring0 0 Hp0 pseudo0 L0 R0 I0 msg0 xSec alpha0)
        = (sign pr0 fakes0 ring0 cring0 0 Hp0 pseudo0 L0 R0 I0 msg0 xSec alpha0).h_0 := by
  decide

/-- C2: the aggregation scalars computed in `sign` do not hash the commitment
image `D = z·H_p(P_0)`: the call to `AggregationHashes::new` in `sign` passes
`H_p_pk` itself in the slot of the fourth hash input (first conjunct, what the
code computes), which differs from the claim's value with fourth input
`z·H_p(P_0)` at `z = 2` (second conjunct), even though `sign` does compute
`D = z·H_p(P_0)` for the signature (third conjunct). -/
theorem C2_aggregation_hash_wrong_fourth_input :
    (AggregationHashes.new pr0 ring0 cring0 I0 pseudo0 Hp0).mu_P
        = AggregationHashes.hash pr0 HASH_KEY_CLSAG_AGG_0 (ringBytes pr0 ring0)
            (ringBytes pr0 cring0) (pr0.compress I0) (pr0.compress Hp0)
            (pr0.compress pseudo0)
    ∧ (AggregationHashes.new pr0 ring0 cring0 I0 pseudo0 Hp0).mu_P
        ≠ mu_P_claim pr0 ring0 cring0 I0 pseudo0 2 Hp0
    ∧ (sign pr0 fakes0 ring0 cring0 2 Hp0 pseudo0 L0 R0 I0 msg0 xSec alpha0).D
        = 2 • Hp0 := by
  decide

/-- C3: the decoy walk does not pair the ring member with the commitment-ring
member at the same index: at a concrete input whose commitment ring has
distinct members, the challenge fold of `sign` (which uses
`commitment_ring[i]` together with `ring[i + 1]`) differs from the claim's
same-index variant. -/
theorem C3_decoy_walk_commitment_index_shift :
    cring0 0 ≠ cring0 1
    ∧ sign_h_last pr0 fakes0 ring0 cring0 0 Hp0 pseudo0 L0 R0 I0 msg0
        ≠ sign_h_last_claim pr0 fakes0 ring0 cring0 0 Hp0 pseudo0 L0 R0 I0 msg0 := by
  decide

/-- C9 (counterexample): at a concrete input the on-chain conversion does not
place the real signer's response at index 0 of `s`: slot 0 holds the bytes of
the first fake response, not the bytes of the real (last-slot) response. -/
theorem C9_real_response_not_at_index_zero :
    (Signature.toClsag pr0
        (sign pr0 fakes0 ring0 cring0 0 Hp0 pseudo0 L0 R0 I0 msg0 xSec alpha0)).s[0]?
      = some (pr0.toBytes (fakes0 ⟨0, by decide⟩))
    ∧ (Signature.toClsag pr0
        (sign pr0 fakes0 ring0 cring0 0 Hp0 pseudo0 L0 R0 I0 msg0 xSec alpha0)).s[0]?
      ≠ some (pr0.toBytes
          ((sign pr0 fakes0 ring0 cring0 0 Hp0 pseudo0 L0 R0 I0 msg0 xSec
              alpha0).responses (Fin.last (RING_SIZE - 1)))) := by
  decide

end Monero
